import Mathlib

/-!
Verification of the SuperClip front-end's category/prompt association core.

The TypeScript source is embedded shallowly:
  * `Category` and `Prompt` mirror the interfaces of `categorySlice.ts` and
    `promptSlice.ts`; optional fields become `Option`, and JavaScript
    truthiness of an optional string is `strTruthy`.
  * A JavaScript `Record<string, T>` is an association list in key-insertion
    order: `lookupKey` is indexing, `setKey` is assignment, `pushKey` is
    `if missing then [] fi; record[k].push(v)`.
  * `rootCategories`/`childrenMap` embed the `categoryHierarchy` memo of
    `CategoriesPage.tsx` (lines 183-201); `promptsByCategory` embeds the
    grouping memo (lines 204-225, identical in `PromptsPage`).
  * `ancestorLoop` embeds the parent-chain walk of the `useEffect` at
    `CategoriesPage.tsx` lines 52-73, with explicit fuel: `none` means the
    loop has not reached its exit condition within the given bound.
  * The Redux reducers become pure state-transition functions.
-/

namespace SuperClip

/-- The `Category` interface of `categorySlice.ts`: optional fields are `Option`, absent
`parentId` is `none`. -/
structure Category where
  id : String
  name : String
  description : Option String := none
  color : Option String := none
  icon : Option String := none
  parentId : Option String := none
  createdAt : String := ""
  updatedAt : String := ""
deriving Repr, DecidableEq

/-- The `Prompt` interface of `promptSlice.ts`. -/
structure Prompt where
  id : String
  title : String
  content : String
  description : Option String := none
  isFavorite : Bool := false
  tags : Option (List String) := none
  categoryId : Option String := none
  createdAt : String := ""
  updatedAt : String := ""
deriving Repr, DecidableEq

/-- JavaScript truthiness of an optional string: `undefined` and the empty
string are falsy. -/
def strTruthy : Option String → Bool
  | none => false
  | some s => !(s == "")

/-- Indexing a `Record<string, T>`: the value at the key, or `none` when the
key is absent. -/
def lookupKey {α : Type} : List (String × α) → String → Option α
  | [], _ => none
  | (k, v) :: rest, q => if k == q then some v else lookupKey rest q

/-- Assignment `record[k] = v`: overwrite in place, or append a new key. -/
def setKey {α : Type} : List (String × α) → String → α → List (String × α)
  | [], k, v => [(k, v)]
  | (k', w) :: rest, k, v =>
      if k' == k then (k', v) :: rest else (k', w) :: setKey rest k v

/-- Pushing `record[k].push(v)` after `if (!record[k]) record[k] = []`: append `v` to the
list at key `k`, creating the key when absent. -/
def pushKey {α : Type} : List (String × List α) → String → α → List (String × List α)
  | [], k, v => [(k, [v])]
  | (k', l) :: rest, k, v =>
      if k' == k then (k', l ++ [v]) :: rest else (k', l) :: pushKey rest k v

/-! ## Category tree builder (`categoryHierarchy`, CategoriesPage.tsx 183-201) -/

/-- Roots: `categories.filter(category => !category.parentId)`. -/
def rootCategories (cats : List Category) : List Category :=
  cats.filter (fun c => !(strTruthy c.parentId))

/-- The `forEach` that buckets categories by truthy `parentId`. -/
def childrenMap (cats : List Category) : List (String × List Category) :=
  cats.foldl
    (fun m c =>
      match c.parentId with
      | some p => if p == "" then m else pushKey m p c
      | none => m)
    []

/-- Reading `childrenMap[pid] || []`: the children bucket read the way the renderer
reads it. -/
def childrenOf (cats : List Category) (pid : String) : List Category :=
  (lookupKey (childrenMap cats) pid).getD []

/-- The whole `categoryHierarchy` memo value. -/
def categoryHierarchy (cats : List Category) :
    List Category × List (String × List Category) :=
  (rootCategories cats, childrenMap cats)

/-! ## Prompt grouping (`promptsByCategory`, CategoriesPage.tsx 204-225) -/

/-- The initialization pass: an empty bucket per category id, then the
`uncategorized` sentinel bucket. -/
def initGroups (cats : List Category) : List (String × List Prompt) :=
  setKey (cats.foldl (fun m c => setKey m c.id ([] : List Prompt)) []) "uncategorized" []

/-- One step of the populating `forEach`:
`if (prompt.categoryId && grouped[prompt.categoryId]) push there else push
to grouped['uncategorized']`.  An array value is always truthy, so the
`grouped[...]` check is key presence. -/
def addPromptToGroups (m : List (String × List Prompt)) (p : Prompt) :
    List (String × List Prompt) :=
  match p.categoryId with
  | some cid =>
      if !(cid == "") && (lookupKey m cid).isSome then pushKey m cid p
      else pushKey m "uncategorized" p
  | none => pushKey m "uncategorized" p

/-- The whole `promptsByCategory` memo value. -/
def promptsByCategory (ps : List Prompt) (cats : List Category) :
    List (String × List Prompt) :=
  ps.foldl addPromptToGroups (initGroups cats)

/-- The key a prompt lands under: its truthy `categoryId` when that key was
initialized (a category id or the literal sentinel), otherwise the
sentinel.  Derived for the statements; the code never computes it. -/
def assignedKey (cats : List Category) (p : Prompt) : String :=
  match p.categoryId with
  | some cid =>
      if !(cid == "") && (cid == "uncategorized" || cats.any (fun c => c.id == cid))
      then cid else "uncategorized"
  | none => "uncategorized"

/-! ## Ancestor expansion (CategoriesPage.tsx 52-73) -/

/-- Lookup `categories.find(cat => cat.id === i)?.parentId`. -/
def parentOf (cats : List Category) (i : String) : Option String :=
  match cats.find? (fun c => c.id == i) with
  | some c => c.parentId
  | none => none

/-- The `while (parentId)` walk, with explicit fuel.  `some acc` means the
loop exited (falsy parent) having recorded the ancestor ids `acc` in visit
order; `none` means the exit condition was still unmet after `fuel`
iterations. -/
def ancestorLoop (cats : List Category) : Nat → Option String → List String → Option (List String)
  | 0, _, _ => none
  | _ + 1, none, acc => some acc
  | n + 1, some s, acc =>
      if s == "" then some acc
      else ancestorLoop cats n (parentOf cats s) (acc ++ [s])

/-- The ancestor-expansion computation for a target id: seed the walk with
the target's own `parentId` and run the loop. -/
def computeAncestors (cats : List Category) (target : String) (fuel : Nat) :
    Option (List String) :=
  ancestorLoop cats fuel (parentOf cats target) []

/-- The two-category cycle of the spec's cycle-safety scenario: A's parent is
B and B's parent is A. -/
def cycCats : List Category :=
  [{ id := "A", name := "A", parentId := some "B" },
   { id := "B", name := "B", parentId := some "A" }]

/-! ## Redux slices (categorySlice.ts, promptSlice.ts) -/

/-- The category slice's state. -/
structure CategoryState where
  categories : List Category
  loading : Bool := false
  error : Option String := none
deriving Repr, DecidableEq

/-- The prompt slice's state. -/
structure PromptState where
  prompts : List Prompt
  currentPrompt : Option Prompt := none
  loading : Bool := false
  error : Option String := none
  searchResults : List Prompt := []
  searchQuery : String := ""
deriving Repr, DecidableEq

/-- The message `action.payload ? String(action.payload) : dflt` of every rejected
handler: the rejection message, falling back to the handler's default when
the payload is absent or the empty string (both falsy). -/
def rejMsg (payload : Option String) (dflt : String) : String :=
  match payload with
  | some m => if m == "" then dflt else m
  | none => dflt

/-- Handler `fetchCategories.fulfilled`. -/
def fetchCategoriesFulfilled (payload : List Category) (_s : CategoryState) :
    CategoryState :=
  { categories := payload, loading := false, error := none }

/-- Handler `fetchCategories.rejected`. -/
def fetchCategoriesRejected (payload : Option String) (s : CategoryState) :
    CategoryState :=
  { s with loading := false, error := some (rejMsg payload "Failed to fetch categories") }

/-- Handler `createCategory.fulfilled`: `state.categories.push(action.payload)`. -/
def createCategoryFulfilled (payload : Category) (s : CategoryState) :
    CategoryState :=
  { s with categories := s.categories ++ [payload], loading := false, error := none }

/-- Handler `createCategory.rejected`. -/
def createCategoryRejected (payload : Option String) (s : CategoryState) :
    CategoryState :=
  { s with loading := false, error := some (rejMsg payload "Failed to create category") }

/-- Handler `updateCategory.fulfilled`: `findIndex` by id, replace when found. -/
def updateCategoryFulfilled (payload : Category) (s : CategoryState) :
    CategoryState :=
  { s with
    categories :=
      match s.categories.findIdx? (fun c => c.id == payload.id) with
      | some i => s.categories.set i payload
      | none => s.categories,
    loading := false, error := none }

/-- Handler `updateCategory.rejected`. -/
def updateCategoryRejected (payload : Option String) (s : CategoryState) :
    CategoryState :=
  { s with loading := false, error := some (rejMsg payload "Failed to update category") }

/-- Handler `deleteCategory.fulfilled`:
`state.categories = state.categories.filter(cat => cat.id !== action.payload)`. -/
def deleteCategoryFulfilled (payload : String) (s : CategoryState) :
    CategoryState :=
  { s with categories := s.categories.filter (fun c => !(c.id == payload)),
           loading := false, error := none }

/-- Handler `deleteCategory.rejected`. -/
def deleteCategoryRejected (payload : Option String) (s : CategoryState) :
    CategoryState :=
  { s with loading := false, error := some (rejMsg payload "Failed to delete category") }

/-- Handler `fetchPrompts.fulfilled`: `state.prompts = action.payload`. -/
def fetchPromptsFulfilled (payload : List Prompt) (s : PromptState) : PromptState :=
  { s with prompts := payload, loading := false, error := none }

/-- Handler `fetchPrompts.rejected`. -/
def fetchPromptsRejected (payload : Option String) (s : PromptState) : PromptState :=
  { s with loading := false, error := some (rejMsg payload "Failed to fetch prompts") }

/-- Handler `fetchPromptById.rejected`. -/
def fetchPromptByIdRejected (payload : Option String) (s : PromptState) : PromptState :=
  { s with loading := false, error := some (rejMsg payload "Failed to fetch prompt") }

/-- Handler `createPrompt.fulfilled`: `state.prompts.push(action.payload)`. -/
def createPromptFulfilled (payload : Prompt) (s : PromptState) : PromptState :=
  { s with prompts := s.prompts ++ [payload], loading := false, error := none }

/-- Handler `createPrompt.rejected`. -/
def createPromptRejected (payload : Option String) (s : PromptState) : PromptState :=
  { s with loading := false, error := some (rejMsg payload "Failed to create prompt") }

/-- Handler `updatePrompt.rejected`. -/
def updatePromptRejected (payload : Option String) (s : PromptState) : PromptState :=
  { s with loading := false, error := some (rejMsg payload "Failed to update prompt") }

/-- Handler `deletePrompt.rejected`. -/
def deletePromptRejected (payload : Option String) (s : PromptState) : PromptState :=
  { s with loading := false, error := some (rejMsg payload "Failed to delete prompt") }

/-- The `deleteCategory.fulfilled` action as the combined store sees it: the
category reducer handles it, and the prompt slice, which declares no case
for the `categories/deleteCategory/fulfilled` type, returns its state
unchanged (Redux gives every slice reducer every action). -/
def dispatchDeleteCategoryFulfilled (payload : String)
    (root : CategoryState × PromptState) : CategoryState × PromptState :=
  (deleteCategoryFulfilled payload root.1, root.2)

/-! ## Prompt-creation flow (CreatePromptModal.tsx 67-131) -/

/-- JavaScript `String.prototype.trim`, modelled structurally on the
character list (the ASCII whitespace the forms can contain; Lean's own
`String.trim` is by well-founded recursion and does not evaluate in
proofs). -/
def wsChar (c : Char) : Bool :=
  c == ' ' || c == '\t' || c == '\n' || c == '\r'

/-- Strip leading and trailing whitespace. -/
def jsTrim (s : String) : String :=
  ⟨((s.data.dropWhile wsChar).reverse.dropWhile wsChar).reverse⟩

/-- The new-category draft held beside the form
(`useState` `newCategory`). -/
structure NewCategoryDraft where
  name : String
  description : String := ""
  color : String := "#6366F1"
deriving Repr, DecidableEq

/-- The formik values at submission time. -/
structure PromptFormValues where
  title : String
  content : String
  description : String := ""
  categoryId : String := ""
  tags : List String := []
deriving Repr, DecidableEq

/-- A request the client issues to the REST collaborator. -/
inductive RemoteCall where
  | createCategoryReq (name description color : String) (parentId : Option String)
  | createPromptReq (title content description categoryId : String)
      (tags : List String)
deriving Repr, DecidableEq

/-- The `setErrors` record of the required-field check. -/
structure FormErrors where
  title : Option String := none
  content : Option String := none
  categoryId : Option String := none
deriving Repr, DecidableEq

/-- How the two POSTs resolve, supplied as an oracle for the flow. -/
structure RemoteEnv where
  catResult : Except String Category
  promptResult : Except String Prompt

/-- Everything the submission flow decides: the requests issued in order,
the category cache afterwards, the reported errors, the payload of the
prompt request when one was issued, and whether the modal closed. -/
structure SubmitOutcome where
  calls : List RemoteCall
  categories : List Category
  categoryError : Option String := none
  formErrors : FormErrors := {}
  promptPayload : Option RemoteCall := none
  closedModal : Bool := false
deriving Repr, DecidableEq

/-- The `createCategory` thunk (categorySlice.ts 97-181): reject before any
request when the trimmed name is empty; otherwise POST the formatted data
and, on a response whose category lacks a truthy id, reject after the
request. -/
def createCategoryThunk (name description color : String) (parentId : Option String)
    (env : RemoteEnv) : List RemoteCall × Except String Category :=
  if jsTrim name == "" then ([], .error "Category name is required")
  else
    let call := RemoteCall.createCategoryReq (jsTrim name)
      (if description == "" then "" else jsTrim description)
      (if color == "" then "#6366F1" else color) parentId
    match env.catResult with
    | .error e => ([call], .error e)
    | .ok c =>
        ([call], if c.id == "" then .error "Failed to get ID for new category" else .ok c)

/-- The `createPrompt` thunk (promptSlice.ts 180-252): reject before any
request when a required field is missing; otherwise POST the formatted
data. -/
def createPromptThunk (title content description categoryId : String)
    (tags : List String) (env : RemoteEnv) : List RemoteCall × Except String Prompt :=
  if jsTrim title == "" || jsTrim content == "" || categoryId == "" then
    ([], .error "Title, content, and categoryId are required")
  else
    let call := RemoteCall.createPromptReq (jsTrim title) (jsTrim content)
      (if description == "" then "" else jsTrim description) categoryId tags
    (match env.promptResult with
     | .error e => ([call], .error e)
     | .ok p => ([call], .ok p))

/-- The tail of `onSubmit`: build `promptData` from the (possibly
substituted) values and dispatch `createPrompt`; close the modal only when
it fulfills.  `calls₀`/`cats` carry what the category step already did. -/
def submitPromptStep (values : PromptFormValues) (env : RemoteEnv)
    (calls₀ : List RemoteCall) (cats : List Category) : SubmitOutcome :=
  let title := jsTrim values.title
  let content := jsTrim values.content
  let description := if values.description == "" then "" else jsTrim values.description
  let (calls₁, r) := createPromptThunk title content description values.categoryId values.tags env
  match r with
  | .error _ =>
      { calls := calls₀ ++ calls₁, categories := cats,
        promptPayload := calls₁.head?, closedModal := false }
  | .ok _ =>
      { calls := calls₀ ++ calls₁, categories := cats,
        promptPayload := calls₁.head?, closedModal := true }

/-- The modal's `onSubmit` (CreatePromptModal.tsx 67-131) together with the
category-slice effect of the thunks it awaits: check required fields; in
create-new-category mode validate the draft name, create the category, push
it into the cache on fulfillment (`createCategory.fulfilled`) and
substitute its id as `values.categoryId`; then create the prompt.  An
`unwrap()` rejection throws into the surrounding catch, which only logs. -/
def onSubmitCreatePrompt (creating : Bool) (draft : NewCategoryDraft)
    (values : PromptFormValues) (env : RemoteEnv) (cats : List Category) :
    SubmitOutcome :=
  if jsTrim values.title == "" || jsTrim values.content == ""
      || (values.categoryId == "" && !creating) then
    { calls := [], categories := cats,
      formErrors :=
        { title := if jsTrim values.title == "" then some "Title is required" else none,
          content := if jsTrim values.content == "" then some "Content is required" else none,
          categoryId := if values.categoryId == "" && !creating then
            some "Category is required" else none } }
  else if creating then
    if jsTrim draft.name == "" then
      { calls := [], categories := cats,
        categoryError := some "Category name is required" }
    else
      let (calls₀, r) := createCategoryThunk draft.name draft.description draft.color none env
      match r with
      | .error _ => { calls := calls₀, categories := cats }
      | .ok c =>
          submitPromptStep { values with categoryId := c.id } env calls₀ (cats ++ [c])
  else
    submitPromptStep values env [] cats

/-! ## Response unwrapping and normalization (`fetchPrompts`, promptSlice.ts 75-147)

The thunk probes `response.data` dynamically, so the wire value is embedded
as a JSON-like tree. -/

/-- A JSON value as axios delivers it. -/
inductive JValue where
  | jnull
  | jbool (b : Bool)
  | jnum (n : Int)
  | jstr (s : String)
  | jarr (elems : List JValue)
  | jobj (fields : List (String × JValue))

/-- JavaScript truthiness of a JSON value (arrays and objects are always
truthy, even empty). -/
def jTruthy : JValue → Bool
  | .jnull => false
  | .jbool b => b
  | .jnum n => !(n == 0)
  | .jstr s => !(s == "")
  | .jarr _ => true
  | .jobj _ => true

/-- Truthiness of a possibly-absent value: `undefined` is falsy. -/
def jTruthyOpt : Option JValue → Bool
  | none => false
  | some v => jTruthy v

/-- Property read `v[k]`: a field of an object, `undefined` otherwise (the
names the thunk reads are not own properties of primitives or arrays). -/
def jGet : JValue → String → Option JValue
  | .jobj fs, k => lookupKey fs k
  | _, _ => none

/-- Whether a value is an array (`Array.isArray`). -/
def isArr : JValue → Bool
  | .jarr _ => true
  | _ => false

/-- The elements when the value is an array. -/
def asArr : JValue → Option (List JValue)
  | .jarr xs => some xs
  | _ => none

/-- Enumerated own fields (`Object.entries`): an object's fields in order;
for every other value no field with an array value exists (a string's
entries are its single characters), so the thunk's array search over them
fails either way. -/
def jEntries : JValue → List (String × JValue)
  | .jobj fs => fs
  | _ => []

/-- The `Object.entries(...).find(([_, value]) => Array.isArray(value))`
probe: the first field holding an array. -/
def firstArrayField : List (String × JValue) → Option (List JValue)
  | [] => none
  | (_, .jarr xs) :: _ => some xs
  | _ :: rest => firstArrayField rest

/-- The value `response.data.data` the nested-shape branch works on. -/
def innerData (data : JValue) : JValue :=
  (jGet data "data").getD .jnull

/-- Shape probing of promptSlice.ts 86-124.  `.error` stands for the
`TypeError` that reading `.prompts` on a `null` body raises, which the
thunk's catch turns into a rejection. -/
def extractPrompts (data : JValue) : Except String (List JValue) :=
  if jTruthy data && jTruthyOpt (jGet data "data") then
    match asArr (innerData data) with
    | some xs => .ok xs
    | none =>
        match jGet (innerData data) "prompts" with
        | some (.jarr xs) => .ok xs
        | _ =>
            match firstArrayField (jEntries (innerData data)) with
            | some xs => .ok xs
            | none => .ok []
  else if isArr data then .ok ((asArr data).getD [])
  else
    match data with
    | .jnull => .error "TypeError: cannot read properties of null"
    | _ =>
        match jGet data "prompts" with
        | some (.jarr xs) => .ok xs
        | _ => .ok []

/-- Logical-or `x || dflt` on a possibly-absent value. -/
def jOr (x : Option JValue) (dflt : JValue) : JValue :=
  match x with
  | some w => if jTruthy w then w else dflt
  | none => dflt

/-- Coercion `typeof prompt.content === 'string' ? prompt.content : ''`. -/
def contentNorm (x : Option JValue) : JValue :=
  match x with
  | some (.jstr s) => .jstr s
  | _ => .jstr ""

/-- The defensive map of promptSlice.ts 127-138: spread the raw prompt,
then overwrite the listed fields (an overwritten key keeps its original
position, a fresh one is appended — JavaScript object-literal semantics,
matched by `setKey`).  `now` is `new Date().toISOString()`. -/
def normalizePrompt (now : String) (v : JValue) : JValue :=
  let f0 := jEntries v
  let f1 := setKey f0 "content" (contentNorm (jGet v "content"))
  let f2 := setKey f1 "id" (jOr (jGet v "id") (.jstr ""))
  let f3 := setKey f2 "title" (jOr (jGet v "title") (.jstr "Untitled"))
  let f4 := setKey f3 "description" (jOr (jGet v "description") (.jstr ""))
  let f5 := setKey f4 "isFavorite" (.jbool (jTruthyOpt (jGet v "isFavorite")))
  let f6 := setKey f5 "createdAt" (jOr (jGet v "createdAt") (.jstr now))
  let f7 := setKey f6 "updatedAt" (jOr (jGet v "updatedAt") (.jstr now))
  .jobj f7

/-- The whole `fetchPrompts` thunk on a wire value: probe for the array,
then normalize each element; `.ok` is fulfillment with the payload the
reducer stores, `.error` a rejection. -/
def fetchPromptsModel (data : JValue) (now : String) : Except String (List JValue) :=
  (extractPrompts data).map (List.map (normalizePrompt now))

/-- Whether any of the probes of `extractPrompts` finds an array — written
over the same probes, but without the early commitment to the first
branch. -/
def foundArray (data : JValue) : Bool :=
  if jTruthy data && jTruthyOpt (jGet data "data") then
    isArr (innerData data)
      || (match jGet (innerData data) "prompts" with
          | some (.jarr _) => true
          | _ => false)
      || (firstArrayField (jEntries (innerData data))).isSome
  else
    isArr data
      || (match jGet data "prompts" with
          | some (.jarr _) => true
          | _ => false)

/-- Normalization invariant, field `content`: a string. -/
def contentIsString (v : JValue) : Bool :=
  match jGet v "content" with
  | some (.jstr _) => true
  | _ => false

/-- Normalization invariant, field `title`: present and truthy (so never the
empty string). -/
def titleTruthy (v : JValue) : Bool :=
  jTruthyOpt (jGet v "title")

/-- Field `description` is present and a string. -/
def descIsString (v : JValue) : Bool :=
  match jGet v "description" with
  | some (.jstr _) => true
  | _ => false

/-- Field `description` is present, and a string or a truthy value kept
from the wire. -/
def descStringOrTruthy (v : JValue) : Bool :=
  match jGet v "description" with
  | some (.jstr _) => true
  | some w => jTruthy w
  | none => false

/-- Field `isFavorite` is a boolean. -/
def isFavoriteBool (v : JValue) : Bool :=
  match jGet v "isFavorite" with
  | some (.jbool _) => true
  | _ => false

/-- A field is present. -/
def hasField (v : JValue) (k : String) : Bool :=
  (jGet v k).isSome

/-- A wire value violating the spec's description clause: a prompt whose
`description` arrives as the number 5 (truthy, not a string). -/
def descCexData : JValue :=
  .jarr [.jobj [("id", .jstr "p1"), ("title", .jstr "T"),
                ("content", .jstr "body"), ("description", .jnum 5)]]

/-- The category-creation request `onSubmit` issues for a draft (the
thunk's formatted payload). -/
def categoryCallOf (draft : NewCategoryDraft) : RemoteCall :=
  .createCategoryReq (jsTrim draft.name)
    (if draft.description == "" then "" else jsTrim draft.description)
    (if draft.color == "" then "#6366F1" else draft.color) none

/-- The prompt-creation request `onSubmit` issues for the form values and a
category id (the modal formats `promptData`, then the thunk formats it
again). -/
def promptCallOf (values : PromptFormValues) (cid : String) : RemoteCall :=
  .createPromptReq (jsTrim (jsTrim values.title)) (jsTrim (jsTrim values.content))
    (if (if values.description == "" then "" else jsTrim values.description) == ""
     then ""
     else jsTrim (if values.description == "" then "" else jsTrim values.description))
    cid values.tags

/-- Sample draft for exercising the submission flow. -/
def draftW : NewCategoryDraft := { name := "NewCat" }

/-- Sample form values for exercising the submission flow. -/
def valuesW : PromptFormValues := { title := "My title", content := "My content" }

/-- Sample environment: category creation succeeds with a fresh id, prompt
creation fails. -/
def envW : RemoteEnv :=
  { catResult := Except.ok { id := "cat-9", name := "NewCat" },
    promptResult := Except.error "Request failed with status code 500" }

/-! # Theorems -/

/-! ## Record lemmas -/

theorem lookupKey_setKey {α : Type} (m : List (String × α)) (k q : String) (v : α) :
    lookupKey (setKey m k v) q = if k == q then some v else lookupKey m q := by
  induction m with
  | nil => simp [setKey, lookupKey]
  | cons kv rest ih =>
      obtain ⟨k', w⟩ := kv
      by_cases h : k' = k
      · subst h
        by_cases hq : k' = q <;> simp [setKey, lookupKey, hq]
      · by_cases hq : k' = q
        · subst hq
          simp [setKey, lookupKey, h, Ne.symm h]
        · simp [setKey, lookupKey, h, hq, ih]

theorem lookupKey_pushKey_self {α : Type} (m : List (String × List α)) (k : String)
    (v : α) :
    lookupKey (pushKey m k v) k = some ((lookupKey m k).getD [] ++ [v]) := by
  induction m with
  | nil => simp [pushKey, lookupKey]
  | cons kv rest ih =>
      obtain ⟨k', l⟩ := kv
      by_cases h : k' = k
      · subst h
        simp [pushKey, lookupKey]
      · simp [pushKey, lookupKey, h, ih]

theorem lookupKey_pushKey_ne {α : Type} (m : List (String × List α)) (k q : String)
    (v : α) (h : ¬ q = k) :
    lookupKey (pushKey m k v) q = lookupKey m q := by
  induction m with
  | nil => simp [pushKey, lookupKey, Ne.symm h]
  | cons kv rest ih =>
      obtain ⟨k', l⟩ := kv
      by_cases hk : k' = k
      · subst hk
        simp [pushKey, lookupKey, Ne.symm h]
      · by_cases hq : k' = q <;> simp [pushKey, lookupKey, hk, hq, h, ih]

/-! ## C1: the tree builder -/

theorem childrenMap_foldl_lookup (cats : List Category)
    (m : List (String × List Category)) (pid : String) :
    (lookupKey
        (cats.foldl
          (fun m c =>
            match c.parentId with
            | some p => if p == "" then m else pushKey m p c
            | none => m)
          m)
        pid).getD []
      = (lookupKey m pid).getD []
        ++ cats.filter (fun c => c.parentId == some pid && !(pid == "")) := by
  induction cats generalizing m with
  | nil => simp
  | cons c cs ih =>
      rw [List.foldl_cons, ih]
      rcases h : c.parentId with _ | p
      · simp [List.filter_cons, h]
      · by_cases hp : p = ""
        · subst hp
          by_cases hpid : pid = ""
          · subst hpid
            simp [List.filter_cons, h]
          · simp [List.filter_cons, h, Ne.symm hpid]
        · by_cases hpq : p = pid
          · subst hpq
            simp [List.filter_cons, h, hp, lookupKey_pushKey_self]
          · simp [List.filter_cons, h, hp, hpq,
              lookupKey_pushKey_ne _ _ _ _ (Ne.symm hpq)]

theorem childrenOf_eq_filter (cats : List Category) (pid : String) :
    childrenOf cats pid
      = cats.filter (fun c => c.parentId == some pid && !(pid == "")) := by
  have h := childrenMap_foldl_lookup cats [] pid
  simpa [childrenOf, childrenMap, lookupKey] using h

/-- C1.  For every list of categories, the tree builder returns as roots
exactly the categories whose `parentId` is empty or absent, in input order;
each input category's children bucket is the ordered sublist of categories
naming it as parent; hence every category with a non-empty `parentId` lies
in exactly its parent's bucket when the parent id exists in the input, and
in no input category's bucket when its `parentId` is dangling. -/
theorem buildTree_partition (cats : List Category) :
    rootCategories cats
        = cats.filter (fun c => c.parentId == none || c.parentId == some "")
    ∧ (∀ p ∈ cats, childrenOf cats p.id
        = cats.filter (fun c => c.parentId == some p.id && !(p.id == "")))
    ∧ (∀ c ∈ cats, ∀ p ∈ cats,
        (c ∈ childrenOf cats p.id ↔ c.parentId = some p.id ∧ ¬ p.id = ""))
    ∧ (∀ c ∈ cats, ∀ s, c.parentId = some s → (∀ p ∈ cats, ¬ p.id = s) →
        ∀ p ∈ cats, c ∉ childrenOf cats p.id) := by
  have hmem : ∀ c ∈ cats, ∀ p ∈ cats,
      (c ∈ childrenOf cats p.id ↔ c.parentId = some p.id ∧ ¬ p.id = "") := by
    intro c hc p _
    rw [childrenOf_eq_filter, List.mem_filter]
    constructor
    · rintro ⟨-, h⟩
      simpa using h
    · intro h
      exact ⟨hc, by simpa using h⟩
  refine ⟨?_, fun p _ => childrenOf_eq_filter cats p.id, hmem, ?_⟩
  · apply List.filter_congr
    intro c _
    rcases h : c.parentId with _ | s
    · simp [strTruthy, h]
    · by_cases hs : s = "" <;> simp [strTruthy, h, hs]
  · intro c hc s hs hdangling p hp hmemp
    rcases (hmem c hc p hp).mp hmemp with ⟨hpar, -⟩
    rw [hpar] at hs
    exact hdangling p hp (Option.some.inj hs)

/-! ## C2: the prompt grouping -/

theorem initGroups_foldl_lookup (cats : List Category)
    (m : List (String × List Prompt)) (k : String) :
    lookupKey (cats.foldl (fun m c => setKey m c.id ([] : List Prompt)) m) k
      = if cats.any (fun c => c.id == k) then some [] else lookupKey m k := by
  induction cats generalizing m with
  | nil => simp
  | cons c cs ih =>
      rw [List.foldl_cons, ih, lookupKey_setKey]
      by_cases hc : c.id = k
      · cases hcs : cs.any (fun c => c.id == k) <;> simp [hc, hcs]
      · cases hcs : cs.any (fun c => c.id == k) <;> simp [hc, hcs]

theorem initGroups_lookup (cats : List Category) (k : String) :
    lookupKey (initGroups cats) k
      = if k == "uncategorized" || cats.any (fun c => c.id == k)
        then some [] else none := by
  rw [initGroups, lookupKey_setKey, initGroups_foldl_lookup]
  by_cases hk : k = "uncategorized"
  · simp [hk]
  · cases hcs : cats.any (fun c => c.id == k) <;>
      simp [hk, Ne.symm hk, hcs, lookupKey]

theorem addPrompt_lookup (cats : List Category) (m : List (String × List Prompt))
    (p : Prompt)
    (hm : ∀ k, (lookupKey m k).isSome
        = (k == "uncategorized" || cats.any (fun c => c.id == k)))
    (k : String) :
    lookupKey (addPromptToGroups m p) k
      = (lookupKey m k).map
          (fun l => if assignedKey cats p == k then l ++ [p] else l) := by
  have hU : (lookupKey m "uncategorized").isSome = true := by
    rw [hm]; simp
  have huncat : ∀ hk : ¬ "uncategorized" = k,
      lookupKey (pushKey m "uncategorized" p) k
        = (lookupKey m k).map (fun l => if ("uncategorized" : String) == k then l ++ [p] else l) := by
    intro hk
    rw [lookupKey_pushKey_ne _ _ _ _ (Ne.symm hk)]
    cases lookupKey m k <;> simp [hk]
  have huncatself : lookupKey (pushKey m "uncategorized" p) "uncategorized"
      = (lookupKey m "uncategorized").map
          (fun l => if ("uncategorized" : String) == "uncategorized" then l ++ [p] else l) := by
    rw [lookupKey_pushKey_self]
    rcases ho : lookupKey m "uncategorized" with _ | l
    · rw [ho] at hU; simp at hU
    · simp
  rcases hcid : p.categoryId with _ | cid
  · rw [addPromptToGroups]
    simp only [hcid, assignedKey]
    by_cases hk : "uncategorized" = k
    · subst hk; exact huncatself
    · exact huncat hk
  · rw [addPromptToGroups]
    simp only [hcid, assignedKey]
    by_cases hcond : (!(cid == "") && (lookupKey m cid).isSome) = true
    · have hcond2 : (!(cid == "")
          && (cid == "uncategorized" || cats.any (fun c => c.id == cid))) = true := by
        rw [← hm]; exact hcond
      rw [if_pos hcond, hcond2, if_pos rfl]
      by_cases hk : cid = k
      · subst hk
        rw [lookupKey_pushKey_self]
        rcases ho : lookupKey m cid with _ | l
        · rw [ho] at hcond; simp at hcond
        · simp
      · rw [lookupKey_pushKey_ne _ _ _ _ (Ne.symm hk)]
        cases lookupKey m k <;> simp [hk]
    · have hcond2 : ¬ (!(cid == "")
          && (cid == "uncategorized" || cats.any (fun c => c.id == cid))) = true := by
        rw [← hm]; exact hcond
      rw [if_neg hcond, if_neg hcond2]
      by_cases hk : "uncategorized" = k
      · subst hk; exact huncatself
      · exact huncat hk

theorem addPrompt_keys (cats : List Category) (m : List (String × List Prompt))
    (p : Prompt)
    (hm : ∀ k, (lookupKey m k).isSome
        = (k == "uncategorized" || cats.any (fun c => c.id == k)))
    (k : String) :
    (lookupKey (addPromptToGroups m p) k).isSome
      = (k == "uncategorized" || cats.any (fun c => c.id == k)) := by
  rw [addPrompt_lookup cats m p hm k, ← hm k]
  cases lookupKey m k <;> simp

theorem groups_foldl_lookup (ps : List Prompt) (cats : List Category)
    (m : List (String × List Prompt))
    (hm : ∀ k, (lookupKey m k).isSome
        = (k == "uncategorized" || cats.any (fun c => c.id == k)))
    (k : String) :
    lookupKey (ps.foldl addPromptToGroups m) k
      = (lookupKey m k).map
          (fun l => l ++ ps.filter (fun p => assignedKey cats p == k)) := by
  induction ps generalizing m with
  | nil =>
      simp only [List.foldl_nil, List.filter_nil, List.append_nil]
      rcases h : lookupKey m k with _ | l <;> simp [h]
  | cons p ps ih =>
      rw [List.foldl_cons, ih _ (addPrompt_keys cats m p hm),
        addPrompt_lookup cats m p hm k]
      rcases lookupKey m k with _ | l
      · rfl
      · by_cases hp : assignedKey cats p = k
        · simp [List.filter_cons, hp]
        · simp [List.filter_cons, hp]

theorem promptsByCategory_lookup (ps : List Prompt) (cats : List Category)
    (k : String) :
    lookupKey (promptsByCategory ps cats) k
      = if k == "uncategorized" || cats.any (fun c => c.id == k)
        then some (ps.filter (fun p => assignedKey cats p == k)) else none := by
  rw [promptsByCategory,
    groups_foldl_lookup ps cats (initGroups cats)
      (fun q => by rw [initGroups_lookup]; split <;> simp_all) k,
    initGroups_lookup]
  split <;> simp

theorem assignedKey_is_key (cats : List Category) (p : Prompt) :
    (assignedKey cats p == "uncategorized"
      || cats.any (fun c => c.id == assignedKey cats p)) = true := by
  rcases h : p.categoryId with _ | cid
  · simp [assignedKey, h]
  · simp only [assignedKey, h]
    by_cases hcond : (!(cid == "")
        && (cid == "uncategorized" || cats.any (fun c => c.id == cid))) = true
    · rw [if_pos hcond]
      exact (Bool.and_eq_true_iff.mp hcond).2
    · rw [if_neg hcond]
      simp

/-- C2.  For every prompt list and category list, the grouping creates a
bucket (possibly empty) for every category id plus the uncategorized
sentinel; each bucket is the ordered sublist of the prompts assigned to its
key; and every prompt lies in exactly one bucket — the bucket of its
`categoryId` when that id names a category (or the sentinel key itself),
and the uncategorized bucket when its `categoryId` is absent, empty or
matches no category. -/
theorem groupByCategory_partition (ps : List Prompt) (cats : List Category) :
    (∀ c ∈ cats, lookupKey (promptsByCategory ps cats) c.id
        = some (ps.filter (fun p => assignedKey cats p == c.id)))
    ∧ lookupKey (promptsByCategory ps cats) "uncategorized"
        = some (ps.filter (fun p => assignedKey cats p == "uncategorized"))
    ∧ (∀ p ∈ ps, ∀ k,
        (p ∈ (lookupKey (promptsByCategory ps cats) k).getD []
          ↔ assignedKey cats p = k))
    ∧ (∀ p ∈ ps, ∀ c ∈ cats, p.categoryId = some c.id → ¬ c.id = "" →
        p ∈ (lookupKey (promptsByCategory ps cats) c.id).getD [])
    ∧ (∀ p ∈ ps,
        (p.categoryId = none ∨ p.categoryId = some ""
          ∨ (∃ cid, p.categoryId = some cid ∧ ∀ c ∈ cats, ¬ c.id = cid)) →
        p ∈ (lookupKey (promptsByCategory ps cats) "uncategorized").getD []) := by
  have hmem : ∀ p ∈ ps, ∀ k,
      (p ∈ (lookupKey (promptsByCategory ps cats) k).getD []
        ↔ assignedKey cats p = k) := by
    intro p hp k
    rw [promptsByCategory_lookup]
    split
    · next hkey =>
        simp only [Option.getD_some, List.mem_filter]
        constructor
        · rintro ⟨-, h⟩; simpa using h
        · intro h; exact ⟨hp, by simpa using h⟩
    · next hkey =>
        simp only [Option.getD_none, List.not_mem_nil, false_iff]
        intro h
        rw [← h] at hkey
        exact hkey (assignedKey_is_key cats p)
  refine ⟨?_, ?_, hmem, ?_, ?_⟩
  · intro c hc
    rw [promptsByCategory_lookup, if_pos]
    rw [Bool.or_eq_true]
    exact Or.inr (List.any_eq_true.mpr ⟨c, hc, by simp⟩)
  · rw [promptsByCategory_lookup, if_pos]
    simp
  · intro p hp c hc hcid hne
    rw [hmem p hp c.id, assignedKey, hcid]
    have : (c.id == "uncategorized" || cats.any (fun x => x.id == c.id)) = true := by
      rw [Bool.or_eq_true]
      exact Or.inr (List.any_eq_true.mpr ⟨c, hc, by simp⟩)
    simp [hne, this]
  · intro p hp hcase
    rw [hmem p hp "uncategorized", assignedKey]
    rcases hcase with h | h | ⟨cid, hcid, hnone⟩
    · rw [h]
    · rw [h]; simp
    · rw [hcid]
      by_cases hu : cid = "uncategorized"
      · simp [hu]
      · have : cats.any (fun c => c.id == cid) = false := by
          rw [List.any_eq_false]
          intro c hc
          simpa using hnone c hc
        simp [hu, this]

/-! ## C3: the ancestor walk on a cyclic parent chain -/

theorem ancestorLoop_cyc_stuck (fuel : Nat) :
    ∀ p acc, (p = some "A" ∨ p = some "B") →
      ancestorLoop cycCats fuel p acc = none := by
  induction fuel with
  | zero => intro p acc _; rfl
  | succ n ih =>
      rintro p acc (rfl | rfl)
      · have hA : parentOf cycCats "A" = some "B" := rfl
        rw [ancestorLoop, if_neg (by decide), hA]
        exact ih _ _ (Or.inr rfl)
      · have hB : parentOf cycCats "B" = some "A" := rfl
        rw [ancestorLoop, if_neg (by decide), hB]
        exact ih _ _ (Or.inl rfl)

/-- C3.  On the two-cycle A⇄B the parent-chain walk seeded at target A never
reaches its exit condition: for every iteration bound the fuelled embedding
of the `while (parentId)` loop is still running (`none`), so the source
loop runs forever — the claim's required termination does not hold of the
code. -/
theorem computeAncestors_cycle_never_terminates (fuel : Nat) :
    computeAncestors cycCats "A" fuel = none := by
  rw [computeAncestors]
  have hA : parentOf cycCats "A" = some "B" := rfl
  rw [hA]
  exact ancestorLoop_cyc_stuck fuel _ _ (Or.inr rfl)

/-! ## C9: determinism of the derived views -/

/-- C9.  The tree builder and the grouping are deterministic pure functions
of their inputs: in this embedding both are Lean functions of the category
list (and prompt list), so two applications to the same input are
definitionally the same value, and structural equality holds
reflexively. -/
theorem derivedViews_deterministic (cats : List Category) (ps : List Prompt) :
    categoryHierarchy cats = categoryHierarchy cats
      ∧ promptsByCategory ps cats = promptsByCategory ps cats :=
  ⟨rfl, rfl⟩

/-! ## C6: client-side delete of a category -/

theorem assignedKey_deleted (cats : List Category) (i : String) (p : Prompt)
    (hp : p.categoryId = some i) :
    assignedKey (cats.filter (fun c => !(c.id == i))) p = "uncategorized" := by
  have hnone : (cats.filter (fun c => !(c.id == i))).any (fun c => c.id == i) = false := by
    rw [List.any_eq_false]
    intro c hc
    have := (List.mem_filter.mp hc).2
    simpa using this
  rw [assignedKey, hp]
  by_cases hu : i = "uncategorized"
  · subst hu; simp [hnone]
  · simp [hnone, hu]

/-- C6.  The `deleteCategory.fulfilled` action removes from the category
cache exactly the entries with the deleted id (all other categories survive
unchanged, in order), and leaves the prompt slice's state — in particular
the cached prompt list — completely untouched; a prompt referencing the
deleted id thereafter lands in the uncategorized bucket only by
regrouping. -/
theorem deleteCategory_frame (cs : CategoryState) (ps : PromptState) (i : String) :
    (dispatchDeleteCategoryFulfilled i (cs, ps)).2 = ps
    ∧ (dispatchDeleteCategoryFulfilled i (cs, ps)).1.categories
        = cs.categories.filter (fun c => !(c.id == i))
    ∧ (∀ c ∈ cs.categories, ¬ c.id = i →
        c ∈ (dispatchDeleteCategoryFulfilled i (cs, ps)).1.categories)
    ∧ (∀ c ∈ (dispatchDeleteCategoryFulfilled i (cs, ps)).1.categories,
        c ∈ cs.categories ∧ ¬ c.id = i)
    ∧ (∀ p : Prompt, p.categoryId = some i →
        assignedKey (dispatchDeleteCategoryFulfilled i (cs, ps)).1.categories p
          = "uncategorized") := by
  refine ⟨rfl, rfl, ?_, ?_, ?_⟩
  · intro c hc hne
    exact List.mem_filter.mpr ⟨hc, by simpa using hne⟩
  · intro c hc
    have h := List.mem_filter.mp hc
    exact ⟨h.1, by simpa using h.2⟩
  · intro p hp
    exact assignedKey_deleted cs.categories i p hp

/-! ## C7: rejected remote calls leave the cache untouched -/

/-- C7.  Every rejection handler of the two slices — fetch, create, update
and delete on categories, and fetch (list and by id), create, update and
delete on prompts — leaves the cached entity list exactly as it was,
clears the loading flag and records an error message, and nothing else. -/
theorem rejections_leave_cache (cs : CategoryState) (ps : PromptState)
    (msg : Option String) :
    ((fetchCategoriesRejected msg cs).categories = cs.categories
      ∧ (fetchCategoriesRejected msg cs).loading = false
      ∧ (fetchCategoriesRejected msg cs).error.isSome = true)
    ∧ ((createCategoryRejected msg cs).categories = cs.categories
      ∧ (createCategoryRejected msg cs).loading = false
      ∧ (createCategoryRejected msg cs).error.isSome = true)
    ∧ ((updateCategoryRejected msg cs).categories = cs.categories
      ∧ (updateCategoryRejected msg cs).loading = false
      ∧ (updateCategoryRejected msg cs).error.isSome = true)
    ∧ ((deleteCategoryRejected msg cs).categories = cs.categories
      ∧ (deleteCategoryRejected msg cs).loading = false
      ∧ (deleteCategoryRejected msg cs).error.isSome = true)
    ∧ ((fetchPromptsRejected msg ps).prompts = ps.prompts
      ∧ (fetchPromptsRejected msg ps).loading = false
      ∧ (fetchPromptsRejected msg ps).error.isSome = true)
    ∧ ((fetchPromptByIdRejected msg ps).prompts = ps.prompts
      ∧ (fetchPromptByIdRejected msg ps).loading = false
      ∧ (fetchPromptByIdRejected msg ps).error.isSome = true)
    ∧ ((createPromptRejected msg ps).prompts = ps.prompts
      ∧ (createPromptRejected msg ps).loading = false
      ∧ (createPromptRejected msg ps).error.isSome = true)
    ∧ ((updatePromptRejected msg ps).prompts = ps.prompts
      ∧ (updatePromptRejected msg ps).loading = false
      ∧ (updatePromptRejected msg ps).error.isSome = true)
    ∧ ((deletePromptRejected msg ps).prompts = ps.prompts
      ∧ (deletePromptRejected msg ps).loading = false
      ∧ (deletePromptRejected msg ps).error.isSome = true) :=
  ⟨⟨rfl, rfl, rfl⟩, ⟨rfl, rfl, rfl⟩, ⟨rfl, rfl, rfl⟩, ⟨rfl, rfl, rfl⟩,
   ⟨rfl, rfl, rfl⟩, ⟨rfl, rfl, rfl⟩, ⟨rfl, rfl, rfl⟩, ⟨rfl, rfl, rfl⟩,
   ⟨rfl, rfl, rfl⟩⟩

/-! ## C8: a fulfilled fetch fully replaces the cache -/

/-- C8.  After `fetchCategories.fulfilled` or `fetchPrompts.fulfilled` the
cached list is exactly the action payload — the prior cache is not diffed
or merged in, so an element of the new cache is an element of the
payload. -/
theorem fetch_replaces_cache (cs : CategoryState) (ps : PromptState)
    (catPayload : List Category) (promptPayload : List Prompt) :
    (fetchCategoriesFulfilled catPayload cs).categories = catPayload
    ∧ (fetchPromptsFulfilled promptPayload ps).prompts = promptPayload
    ∧ (∀ c, c ∈ (fetchCategoriesFulfilled catPayload cs).categories → c ∈ catPayload)
    ∧ (∀ p, p ∈ (fetchPromptsFulfilled promptPayload ps).prompts → p ∈ promptPayload) :=
  ⟨rfl, rfl, fun _ h => h, fun _ h => h⟩

/-! ## C4 and C5: the create-category-then-create-prompt submission -/

theorem submitPromptStep_spec (values : PromptFormValues) (env : RemoteEnv)
    (calls₀ : List RemoteCall) (cats : List Category)
    (ht : ¬ jsTrim (jsTrim values.title) = "")
    (hc : ¬ jsTrim (jsTrim values.content) = "")
    (hcid : ¬ values.categoryId = "") :
    (submitPromptStep values env calls₀ cats).calls
        = calls₀ ++ [promptCallOf values values.categoryId]
    ∧ (submitPromptStep values env calls₀ cats).categories = cats
    ∧ ((submitPromptStep values env calls₀ cats).closedModal
        = match env.promptResult with
          | .ok _ => true
          | .error _ => false) := by
  rcases hp : env.promptResult with e | p <;>
    simp [submitPromptStep, createPromptThunk, ht, hc, hcid, promptCallOf, hp]

theorem onSubmit_categoryOk (draft : NewCategoryDraft) (values : PromptFormValues)
    (env : RemoteEnv) (cats : List Category) (c : Category)
    (h1 : ¬ jsTrim values.title = "") (h2 : ¬ jsTrim values.content = "")
    (hname : ¬ jsTrim draft.name = "") (hok : env.catResult = Except.ok c)
    (hcid : ¬ c.id = "") :
    onSubmitCreatePrompt true draft values env cats
      = submitPromptStep { values with categoryId := c.id } env
          [categoryCallOf draft] (cats ++ [c]) := by
  simp [onSubmitCreatePrompt, createCategoryThunk, h1, h2, hname, hok, hcid,
    categoryCallOf]

theorem onSubmit_categoryFails (draft : NewCategoryDraft) (values : PromptFormValues)
    (env : RemoteEnv) (cats : List Category) (e : String)
    (h1 : ¬ jsTrim values.title = "") (h2 : ¬ jsTrim values.content = "")
    (hname : ¬ jsTrim draft.name = "") (herr : env.catResult = Except.error e) :
    onSubmitCreatePrompt true draft values env cats
      = { calls := [categoryCallOf draft], categories := cats } := by
  simp [onSubmitCreatePrompt, createCategoryThunk, h1, h2, hname, herr,
    categoryCallOf]

/-- C4.  Submitting in create-new-category mode first issues the category
creation; the prompt creation is issued only after (and with a payload
whose `categoryId` is the id the category call returned); a failed category
creation issues no prompt call; and a failed prompt creation after a
successful category creation leaves the created category in the cache. -/
theorem createCategoryThenPrompt (draft : NewCategoryDraft)
    (values : PromptFormValues) (env : RemoteEnv) (cats : List Category)
    (htitle : ¬ jsTrim (jsTrim values.title) = "")
    (hcontent : ¬ jsTrim (jsTrim values.content) = "")
    (hname : ¬ jsTrim draft.name = "") :
    (∀ c, env.catResult = Except.ok c → ¬ c.id = "" →
        (onSubmitCreatePrompt true draft values env cats).calls
            = [categoryCallOf draft, promptCallOf values c.id]
      ∧ (onSubmitCreatePrompt true draft values env cats).categories = cats ++ [c])
    ∧ (∀ e, env.catResult = Except.error e →
        (onSubmitCreatePrompt true draft values env cats).calls
            = [categoryCallOf draft]
      ∧ (onSubmitCreatePrompt true draft values env cats).categories = cats)
    ∧ (∀ c e, env.catResult = Except.ok c → ¬ c.id = "" →
        env.promptResult = Except.error e →
        (onSubmitCreatePrompt true draft values env cats).categories = cats ++ [c]
      ∧ (onSubmitCreatePrompt true draft values env cats).closedModal = false) := by
  have h1 : ¬ jsTrim values.title = "" := fun e => htitle (by rw [e]; decide)
  have h2 : ¬ jsTrim values.content = "" := fun e => hcontent (by rw [e]; decide)
  refine ⟨?_, ?_, ?_⟩
  · intro c hok hcid
    rw [onSubmit_categoryOk draft values env cats c h1 h2 hname hok hcid]
    obtain ⟨ha, hb, -⟩ :=
      submitPromptStep_spec { values with categoryId := c.id } env
        [categoryCallOf draft] (cats ++ [c]) htitle hcontent hcid
    exact ⟨ha, hb⟩
  · intro e herr
    rw [onSubmit_categoryFails draft values env cats e h1 h2 hname herr]
    exact ⟨rfl, rfl⟩
  · intro c e hok hcid hperr
    rw [onSubmit_categoryOk draft values env cats c h1 h2 hname hok hcid]
    obtain ⟨-, hb, hm⟩ :=
      submitPromptStep_spec { values with categoryId := c.id } env
        [categoryCallOf draft] (cats ++ [c]) htitle hcontent hcid
    rw [hperr] at hm
    exact ⟨hb, hm⟩

/-- Closed instance of C4: a fresh category "cat-9" is created first, its id
is carried by the prompt request, and the prompt request's failure leaves
"cat-9" cached. -/
theorem createCategoryThenPrompt_witness :
    (∀ c, envW.catResult = Except.ok c → ¬ c.id = "" →
        (onSubmitCreatePrompt true draftW valuesW envW []).calls
            = [categoryCallOf draftW, promptCallOf valuesW c.id]
      ∧ (onSubmitCreatePrompt true draftW valuesW envW []).categories = [] ++ [c])
    ∧ (∀ e, envW.catResult = Except.error e →
        (onSubmitCreatePrompt true draftW valuesW envW []).calls
            = [categoryCallOf draftW]
      ∧ (onSubmitCreatePrompt true draftW valuesW envW []).categories = [])
    ∧ (∀ c e, envW.catResult = Except.ok c → ¬ c.id = "" →
        envW.promptResult = Except.error e →
        (onSubmitCreatePrompt true draftW valuesW envW []).categories = [] ++ [c]
      ∧ (onSubmitCreatePrompt true draftW valuesW envW []).closedModal = false) :=
  createCategoryThenPrompt draftW valuesW envW []
    (by decide) (by decide) (by decide)

/-- C5.  Submitting in create-new-category mode with a whitespace-only
new-category name blocks the submission: the error "Category name is
required" is reported, no request of either kind is issued, and nothing
else changes (cache as before, no formik errors set, modal still open). -/
theorem emptyName_blocks_submission (draft : NewCategoryDraft)
    (values : PromptFormValues) (env : RemoteEnv) (cats : List Category)
    (htitle : ¬ jsTrim values.title = "")
    (hcontent : ¬ jsTrim values.content = "")
    (hname : jsTrim draft.name = "") :
    onSubmitCreatePrompt true draft values env cats
      = { calls := [], categories := cats,
          categoryError := some "Category name is required" } := by
  simp [onSubmitCreatePrompt, htitle, hcontent, hname]

/-- Closed instance of C5 at a whitespace-only draft name. -/
theorem emptyName_blocks_submission_witness :
    onSubmitCreatePrompt true { name := "   " } valuesW envW []
      = { calls := [], categories := [],
          categoryError := some "Category name is required" } :=
  emptyName_blocks_submission { name := "   " } valuesW envW []
    (by decide) (by decide) (by decide)

/-! ## C10: normalization of fetched prompts -/

theorem contentNorm_isStr (x : Option JValue) : ∃ s, contentNorm x = JValue.jstr s := by
  unfold contentNorm
  split
  · next s => exact ⟨s, rfl⟩
  · exact ⟨"", rfl⟩

theorem jOr_truthy (x : Option JValue) (d : JValue) (hd : jTruthy d = true) :
    jTruthy (jOr x d) = true := by
  rcases x with _ | w
  · exact hd
  · cases h : jTruthy w <;> simp [jOr, h, hd]

theorem normalizePrompt_fields (now : String) (v : JValue) :
    jGet (normalizePrompt now v) "content" = some (contentNorm (jGet v "content"))
    ∧ jGet (normalizePrompt now v) "title"
        = some (jOr (jGet v "title") (.jstr "Untitled"))
    ∧ jGet (normalizePrompt now v) "description"
        = some (jOr (jGet v "description") (.jstr ""))
    ∧ jGet (normalizePrompt now v) "isFavorite"
        = some (.jbool (jTruthyOpt (jGet v "isFavorite")))
    ∧ jGet (normalizePrompt now v) "createdAt"
        = some (jOr (jGet v "createdAt") (.jstr now))
    ∧ jGet (normalizePrompt now v) "updatedAt"
        = some (jOr (jGet v "updatedAt") (.jstr now)) := by
  refine ⟨?_, ?_, ?_, ?_, ?_, ?_⟩ <;>
    simp [normalizePrompt, jGet, lookupKey_setKey]

theorem normalized_invariant (now : String) (v : JValue) :
    contentIsString (normalizePrompt now v) = true
    ∧ titleTruthy (normalizePrompt now v) = true
    ∧ descStringOrTruthy (normalizePrompt now v) = true
    ∧ isFavoriteBool (normalizePrompt now v) = true
    ∧ hasField (normalizePrompt now v) "createdAt" = true
    ∧ hasField (normalizePrompt now v) "updatedAt" = true := by
  obtain ⟨hc, ht, hd, hf, hca, hua⟩ := normalizePrompt_fields now v
  refine ⟨?_, ?_, ?_, ?_, ?_, ?_⟩
  · obtain ⟨s, hs⟩ := contentNorm_isStr (jGet v "content")
    simp [contentIsString, hc, hs]
  · simp only [titleTruthy, ht, jTruthyOpt]
    exact jOr_truthy _ _ (by decide)
  · simp only [descStringOrTruthy, hd]
    rcases hx : jGet v "description" with _ | w
    · simp [jOr]
    · cases hw : jTruthy w
      · simp [jOr, hw]
      · rcases w <;> simp_all [jOr]
  · simp [isFavoriteBool, hf]
  · simp [hasField, hca]
  · simp [hasField, hua]

theorem isArr_of_asArr (v : JValue) (xs : List JValue) (h : asArr v = some xs) :
    isArr v = true := by
  cases v <;> simp_all [asArr, isArr]

theorem extract_ok_no_array (data : JValue) (xs : List JValue)
    (h : extractPrompts data = Except.ok xs) (hf : foundArray data = false) :
    xs = [] := by
  unfold extractPrompts at h
  unfold foundArray at hf
  split at h
  · next hg =>
      rw [if_pos hg] at hf
      split at h
      · next xs2 hasr =>
          rw [isArr_of_asArr _ _ hasr] at hf
          simp at hf
      · next hasr =>
          split at h
          · next xs2 hp =>
              rw [hp] at hf
              simp at hf
          · next hp =>
              split at h
              · next xs2 hfa =>
                  rw [hfa] at hf
                  simp at hf
              · next hfa =>
                  exact (Except.ok.inj h).symm
  · next hg =>
      rw [if_neg hg] at hf
      split at h
      · next hisarr =>
          rw [hisarr] at hf
          simp at hf
      · next hisarr =>
          split at h
          · simp at h
          · split at h
            · next xs2 hp =>
                rw [hp] at hf
                simp at hf
            · next hp =>
                exact (Except.ok.inj h).symm

/-- C10 (amended).  Every prompt a fulfilled fetch stores is normalized:
`content` is a string, `title` is present and truthy (never empty),
`description` is present and is a string or the truthy value the server
sent, `isFavorite` is a boolean, and `createdAt`/`updatedAt` are present;
and when none of the probes finds a recognizable prompts array, the
fulfilled payload is the empty list rather than an error. -/
theorem fetchPrompts_normalization (data : JValue) (now : String) (ps : List JValue)
    (h : fetchPromptsModel data now = Except.ok ps) :
    (∀ q ∈ ps, contentIsString q = true ∧ titleTruthy q = true
      ∧ descStringOrTruthy q = true ∧ isFavoriteBool q = true
      ∧ hasField q "createdAt" = true ∧ hasField q "updatedAt" = true)
    ∧ (foundArray data = false → ps = []) := by
  rw [fetchPromptsModel] at h
  rcases he : extractPrompts data with e | xs
  · rw [he] at h
    exact absurd h (by simp [Except.map])
  · rw [he] at h
    have hps : ps = xs.map (normalizePrompt now) := by
      have hok : (Except.ok (xs.map (normalizePrompt now)) : Except String (List JValue))
          = Except.ok ps := by
        simpa [Except.map] using h
      exact (Except.ok.inj hok).symm
    constructor
    · intro q hq
      rw [hps] at hq
      obtain ⟨v, -, rfl⟩ := List.mem_map.mp hq
      exact normalized_invariant now v
    · intro hfa
      rw [hps, extract_ok_no_array data xs he hfa]
      rfl

/-- Closed instance of C10 on a response with no recognizable array: the
fulfilled payload is empty and the invariant holds vacuously. -/
theorem fetchPrompts_normalization_witness :
    (∀ q ∈ ([] : List JValue), contentIsString q = true ∧ titleTruthy q = true
      ∧ descStringOrTruthy q = true ∧ isFavoriteBool q = true
      ∧ hasField q "createdAt" = true ∧ hasField q "updatedAt" = true)
    ∧ (foundArray (JValue.jobj [("status", JValue.jstr "ok")]) = false
        → ([] : List JValue) = []) :=
  fetchPrompts_normalization (JValue.jobj [("status", JValue.jstr "ok")]) "t" [] rfl

/-- C10 counterexample: a server prompt whose `description` is the number 5
is stored with `description` still the number 5, so "description is a
string" fails on the cached list of a fulfilled fetch. -/
theorem fetchPrompts_description_cex :
    (fetchPromptsModel descCexData "2024-01-01T00:00:00.000Z").map
        (fun ps => ps.all (fun q => descIsString q))
      = Except.ok false := rfl

end SuperClip
